import Mathlib

/-!
Verification development for the logux server core.

The definitions below are shallow embeddings of the JavaScript sources of
the repository.  The current generation of the server core is the file
embedded here as the base server (subscription engine, fan-out, action
pipeline, bruteforce counters); the per-connection client of the earlier
generation (src/client.js) is embedded separately for the claims about
authentication takeover and the inbound meta filter.  User callbacks
(access, process, filter, load, finally) are parametrized by their
observable outcomes; log and reporter interactions are recorded as
explicit effect traces.
-/

set_option maxHeartbeats 1000000

namespace Logux

/-- JS truthiness of an optional string field: undefined and the empty
string are falsy, every other string is truthy. -/
def truthyS : Option String → Bool
  | none => false
  | some s => s != ""

/-- Lookup in an association list with string keys, first binding wins
(models reading a JS object property). -/
def lookupKey {α : Type} : List (String × α) → String → Option α
  | [], _ => none
  | p :: rest, k => if p.1 == k then some p.2 else lookupKey rest k

/-- Removal of every binding of a key (models the JS delete operator on
an object whose keys are unique). -/
def eraseKey {α : Type} : List (String × α) → String → List (String × α)
  | [], _ => []
  | p :: rest, k => if p.1 == k then eraseKey rest k else p :: eraseKey rest k

/-- Assignment of a key (models JS property assignment; the binding is
re-inserted at the end, lookups cannot tell the difference). -/
def setKey {α : Type} (l : List (String × α)) (k : String) (v : α) : List (String × α) :=
  eraseKey l k ++ [(k, v)]

/-- Splitting of a character list at every occurrence of a separator,
with the usual JS split semantics (empty pieces kept). -/
def splitCharAux (c : Char) : List Char → List Char → List (List Char)
  | [], acc => [acc.reverse]
  | x :: rest, acc =>
    if x == c then acc.reverse :: splitCharAux c rest []
    else splitCharAux c rest (x :: acc)

/-- JS String.split with a one-character separator. -/
def splitS (s : String) (c : Char) : List String :=
  (splitCharAux c s.data []).map String.mk

/-- Modelled from the spec: the nodeId segment of an action id
"counter nodeId seq"; the @logux/core parser also accepts a bare node id
(used by sendAction on subscriber keys), which has no space and is
returned whole. -/
def idNodeId (id : String) : String :=
  let parts := splitS id ' '
  if 2 ≤ parts.length then parts.getD 1 "" else id

/-- Result of parsing an action id or node id. -/
structure ParsedId where
  nodeId : String
  clientId : String
  userId : Option String
  deriving Repr, DecidableEq

/-- Modelled from the spec: parseId splits the node id on colons; with
two or three segments the first segment is the userId and the first two
joined form the clientId; with a single segment there is no userId and
the clientId is the whole node id.  The parser module itself lives in
the external @logux/core package. -/
def parseId (id : String) : ParsedId :=
  let nodeId := idNodeId id
  let segments := splitS nodeId ':'
  if 2 ≤ segments.length then
    let userId := segments.getD 0 ""
    { nodeId := nodeId
      clientId := userId ++ ":" ++ segments.getD 1 ""
      userId := some userId }
  else
    { nodeId := nodeId, clientId := nodeId, userId := none }

/-- An action: a type tag plus the optional fields the server core reads
(id and reason on logux/undo and logux/processed, channel on
logux/subscribe and logux/unsubscribe). -/
structure Action where
  type : String
  id : Option String := none
  reason : Option String := none
  channel : Option String := none
  deriving Repr, DecidableEq

/-- Action metadata with the fields the embedded code reads or writes;
absent JS properties are none. -/
structure Meta where
  id : String
  status : Option String := none
  server : Option String := none
  subprotocol : Option String := none
  nodes : Option (List String) := none
  clients : Option (List String) := none
  users : Option (List String) := none
  channels : Option (List String) := none
  reasons : Option (List String) := none
  node : Option String := none
  client : Option String := none
  user : Option String := none
  channel : Option String := none
  deriving Repr, DecidableEq

/-- A stored channel filter: the boolean true stored on subscription, or
a filter function produced by the channel filter creator (modelled as a
boolean function of the action and meta; the context argument is derived
from them). -/
inductive ChanFilter where
  | val (b : Bool)
  | fn (f : Action → Meta → Bool)

/-- Evaluation of a stored filter inside sendAction: a function filter
is applied, any other value is used for its truthiness. -/
def evalFilter (f : ChanFilter) (a : Action) (m : Meta) : Bool :=
  match f with
  | .val b => b
  | .fn g => g a m

/-- A connected client as seen by the fan-out: its registry key and its
clientId. -/
structure SClient where
  key : String
  clientId : String
  deriving Repr, DecidableEq

/-- The registries read by sendAction: nodeId, clientId and userId
indexes plus the channel subscriber table. -/
structure FanoutState where
  nodeIds : List (String × SClient) := []
  clientIds : List (String × SClient) := []
  userIds : List (String × List SClient) := []
  subscribers : List (String × List (String × ChanFilter)) := []

/-- Accumulator of sendAction: the dedup set of clientIds and the list
of clients given to onAdd so far, in order. -/
abbrev SendAcc := List String × List SClient

/-- The send closure of sendAction: deliver unless the clientId is
already in the dedup set, then record it. -/
def sendOne (c : SClient) (acc : SendAcc) : SendAcc :=
  if c.clientId ∈ acc.1 then acc else (c.clientId :: acc.1, acc.2 ++ [c])

/-- The meta.nodes loop of sendAction. -/
def sendNodes (S : FanoutState) (idFrom : String) : List String → SendAcc → SendAcc
  | [], acc => acc
  | id :: rest, acc =>
    let acc1 :=
      match lookupKey S.nodeIds id with
      | some c => if c.clientId ≠ idFrom then sendOne c acc else acc
      | none => acc
    sendNodes S idFrom rest acc1

/-- The meta.clients loop of sendAction. -/
def sendClients (S : FanoutState) (idFrom : String) : List String → SendAcc → SendAcc
  | [], acc => acc
  | id :: rest, acc =>
    let acc1 :=
      match lookupKey S.clientIds id with
      | some c => if id ≠ idFrom then sendOne c acc else acc
      | none => acc
    sendClients S idFrom rest acc1

/-- The inner loop of the meta.users branch of sendAction. -/
def sendUserClients (idFrom : String) : List SClient → SendAcc → SendAcc
  | [], acc => acc
  | c :: rest, acc =>
    let acc1 := if c.clientId ≠ idFrom then sendOne c acc else acc
    sendUserClients idFrom rest acc1

/-- The meta.users loop of sendAction. -/
def sendUsers (S : FanoutState) (idFrom : String) : List String → SendAcc → SendAcc
  | [], acc => acc
  | uid :: rest, acc =>
    let acc1 :=
      match lookupKey S.userIds uid with
      | some cs => sendUserClients idFrom cs acc
      | none => acc
    sendUsers S idFrom rest acc1

/-- The subscriber loop of one channel inside sendAction: parse the
clientId of the subscriber node, skip it when already sent, evaluate the
stored filter and deliver through the clientIds registry. -/
def sendChanSubs (S : FanoutState) (a : Action) (m : Meta) :
    List (String × ChanFilter) → SendAcc → SendAcc
  | [], acc => acc
  | p :: rest, acc =>
    let acc1 :=
      let cid := (parseId p.1).clientId
      if cid ∈ acc.1 then acc
      else
        let b := evalFilter p.2 a m
        match lookupKey S.clientIds cid with
        | some c => if b then (cid :: acc.1, acc.2 ++ [c]) else acc
        | none => acc
    sendChanSubs S a m rest acc1

/-- The meta.channels loop of sendAction. -/
def sendChannels (S : FanoutState) (a : Action) (m : Meta) :
    List String → SendAcc → SendAcc
  | [], acc => acc
  | ch :: rest, acc =>
    let acc1 :=
      match lookupKey S.subscribers ch with
      | some subs => sendChanSubs S a m subs acc
      | none => acc
    sendChannels S a m rest acc1

/-- sendAction of the base server: the origin clientId parsed from
meta.id seeds the dedup set, then the nodes, clients, users and channels
branches run in order.  The returned list is the sequence of clients
whose sync peer receives onAdd. -/
def sendAction (S : FanoutState) (a : Action) (m : Meta) : List SClient :=
  let idFrom := (parseId m.id).clientId
  let acc0 : SendAcc := ([idFrom], [])
  let acc1 := match m.nodes with | some ns => sendNodes S idFrom ns acc0 | none => acc0
  let acc2 := match m.clients with | some cs => sendClients S idFrom cs acc1 | none => acc1
  let acc3 := match m.users with | some us => sendUsers S idFrom us acc2 | none => acc2
  let acc4 := match m.channels with | some chs => sendChannels S a m chs acc3 | none => acc3
  acc4.2

/-- Invariant threaded through the sendAction loops: the origin is in
the dedup set, delivered clientIds are distinct, every delivered
clientId is in the dedup set, and none of them is the origin. -/
def SendInv (idFrom : String) (acc : SendAcc) : Prop :=
  idFrom ∈ acc.1 ∧ (acc.2.map SClient.clientId).Nodup ∧
    (∀ c ∈ acc.2, c.clientId ∈ acc.1) ∧ ∀ c ∈ acc.2, c.clientId ≠ idFrom

/-- Observable effects of the action pipeline: log meta changes, log
appends, reporter calls, emitter events and development debug frames. -/
inductive Effect where
  | changeMeta (id : String) (status : String)
  | addToLog (a : Action) (m : Meta)
  | report (name : String)
  | emitError
  | emitProcessed (latency : Nat)
  | emitSubscribed (latency : Nat)
  | emitSubscribing
  | emitUnsubscribed
  | emitSubscriptionCancelled
  | debugFrame (msg : String)
  deriving Repr, DecidableEq

/-- buildUndo of the base server: a fresh meta with status processed
copying the users, nodes, clients, reasons and channels arrays of the
undone meta (arrays are always truthy in JS, so plain copies), and the
logux/undo action referencing the undone id.  The log assigns the real
id of the new entry, hence the empty placeholder. -/
def buildUndo (m : Meta) (reason : String) : Action × Meta :=
  let undoMeta : Meta :=
    { id := "", status := some "processed", users := m.users, nodes := m.nodes,
      clients := m.clients, reasons := m.reasons, channels := m.channels }
  ({ type := "logux/undo", id := some m.id, reason := some reason }, undoMeta)

/-- undo of the base server: build the undo pair and append the origin
clientId parsed from the undone meta.id to the clients list; the result
is the pair passed to log.add.  The extra argument of the source merges
additional payload fields into the action and touches none of the
fields modelled here. -/
def undo (m : Meta) (reason : String) : Action × Meta :=
  let clientId := (parseId m.id).clientId
  let p := buildUndo m reason
  (p.1, { p.2 with clients := some (p.2.clients.getD [] ++ [clientId]) })

/-- The log append performed by undo, as an effect. -/
def undoEffects (m : Meta) (reason : String) : List Effect :=
  [Effect.addToLog (undo m reason).1 (undo m reason).2]

/-- markAsProcessed of the base server: switch the status of the entry
to processed and, for non-server origins, append a logux/processed
confirmation addressed to the origin clientId. -/
def markAsProcessed (m : Meta) : List Effect :=
  [Effect.changeMeta m.id "processed"] ++
    (if (parseId m.id).userId ≠ some "server" then
      [Effect.addToLog { type := "logux/processed", id := some m.id }
        { id := "", clients := some [(parseId m.id).clientId], status := some "processed" }]
    else [])

/-- The finally helper of the base server: delete the per-action context
and run the finally callback of the processor, swallowing a thrown error
into an error event.  Whether the callback exists and whether it throws
are parameters. -/
def finallyEffects (hasFinally finallyThrows : Bool) : List Effect :=
  if hasFinally then (if finallyThrows then [Effect.emitError] else []) else []

/-- A registered processor, reduced to which optional callbacks it
carries (the access callback is mandatory and runs before the log). -/
structure Processor where
  hasResend : Bool := false
  hasProcess : Bool := false
  hasFinally : Bool := false
  deriving Repr, DecidableEq

/-- The processor tables of the base server: exact types, regex types
(a regex is modelled as the predicate tested by string match) and the
optional fallback processor. -/
structure TypesConfig where
  types : List (String × Processor) := []
  regexTypes : List ((String → Bool) × Processor) := []
  otherProcessor : Option Processor := none

/-- getRegexProcessor of the base server: the first registered regex
matching the type. -/
def getRegexProcessor (cfg : TypesConfig) (t : String) : Option Processor :=
  (cfg.regexTypes.find? (fun p => p.1 t)).map (fun p => p.2)

/-- getProcessor of the base server: exact table first, then (only when
regex types exist) the regex table, then the fallback processor. -/
def getProcessor (cfg : TypesConfig) (t : String) : Option Processor :=
  match lookupKey cfg.types t with
  | some p => some p
  | none =>
    if 0 < cfg.regexTypes.length then
      match getRegexProcessor cfg t with
      | some p => some p
      | none => cfg.otherProcessor
    else cfg.otherProcessor

/-- The isLogux test of the preadd hook: equality of type.slice(0, 6)
with the logux/ prefix, computed on the character list of the string. -/
def isLoguxType (t : String) : Bool :=
  t.data.take 6 == "logux/".data

/-- Server options and identity read by the preadd hook. -/
structure ServerConfig where
  nodeId : String
  subprotocol : Option String := none
  backend : Option String := none
  typesCfg : TypesConfig := {}

/-- replaceResendShortcuts of the base server: each truthy singular
resend field is replaced by the one-element plural array and deleted. -/
def replaceResendShortcuts (m : Meta) : Meta :=
  let m1 := if truthyS m.channel then
    { m with channels := some [m.channel.getD ""], channel := none } else m
  let m2 := if truthyS m1.user then
    { m1 with users := some [m1.user.getD ""], user := none } else m1
  let m3 := if truthyS m2.client then
    { m2 with clients := some [m2.client.getD ""], client := none } else m2
  if truthyS m3.node then
    { m3 with nodes := some [m3.node.getD ""], node := none } else m3

/-- The preadd hook of the base server: default server, default waiting
status for non-logux actions, and for entries originating on this server
default subprotocol and the processed short-circuit when nothing could
process the action; finally the resend shortcuts are normalized. -/
def preadd (cfg : ServerConfig) (a : Action) (m : Meta) : Meta :=
  let isLogux := isLoguxType a.type
  let m1 := if !truthyS m.server then { m with server := some cfg.nodeId } else m
  let m2 := if !truthyS m1.status && !isLogux then { m1 with status := some "waiting" } else m1
  let m3 :=
    if idNodeId m2.id == cfg.nodeId then
      let m2a := if !truthyS m2.subprotocol then { m2 with subprotocol := cfg.subprotocol } else m2
      if !truthyS cfg.backend && (lookupKey cfg.typesCfg.types a.type).isNone
          && (getRegexProcessor cfg.typesCfg a.type).isNone && !isLogux then
        { m2a with status := some "processed" }
      else m2a
    else m2
  replaceResendShortcuts m3

/-- processAction of the base server.  The outcome of the process
callback (resolve or throw) and of the finally callback are parameters;
the two Date.now readings are collapsed into one clock value.  Returns
the final in-flight counter and the effect trace. -/
def processAction (proc : Processor) (processOk finallyThrows : Bool)
    (processing : Nat) (m : Meta) (start now : Nat) : Nat × List Effect :=
  let p1 := processing + 1
  let body :=
    if processOk then [Effect.report "processed"] ++ markAsProcessed m
    else [Effect.changeMeta m.id "error"] ++ undoEffects m "error" ++ [Effect.emitError]
  let fin := finallyEffects proc.hasFinally finallyThrows
  (p1 - 1, body ++ fin ++ [Effect.emitProcessed (now - start)])

/-- debugActionError of the base server: in development mode, send a
debug frame to the origin client when it is connected. -/
def debugActionError (env : String) (connectedClientIds : List String)
    (m : Meta) (msg : String) : List Effect :=
  if env == "development" && connectedClientIds.contains (parseId m.id).clientId then
    [Effect.debugFrame msg]
  else []

/-- internalUnkownType of the base server (the typo is in the source):
mark the entry as error, report unknownType, undo with reason
unknownType unless the origin userId is server, and send a development
debug frame. -/
def internalUnkownType (env : String) (connectedClientIds : List String)
    (a : Action) (m : Meta) : List Effect :=
  [Effect.changeMeta m.id "error", Effect.report "unknownType"] ++
    (if (parseId m.id).userId ≠ some "server" then undoEffects m "unknownType" else []) ++
    debugActionError env connectedClientIds m ("Action with unknown type " ++ a.type)

/-- internalWrongChannel of the base server: report wrongChannel, undo
with reason wrongChannel, send a development debug frame.  The
wrongChannels flag bookkeeping of the public wrapper is not needed by
the claims and is elided. -/
def internalWrongChannel (env : String) (connectedClientIds : List String)
    (a : Action) (m : Meta) : List Effect :=
  [Effect.report "wrongChannel"] ++ undoEffects m "wrongChannel" ++
    debugActionError env connectedClientIds m ("Wrong channel name " ++ a.channel.getD "")

/-- denyAction of the base server: report denied, undo with reason
denied, send a development debug frame. -/
def denyAction (env : String) (connectedClientIds : List String) (m : Meta) : List Effect :=
  [Effect.report "denied"] ++ undoEffects m "denied" ++
    debugActionError env connectedClientIds m ("Action \"" ++ m.id ++ "\" was denied")

/-- The channel subscriber table: channel name to node id to stored
filter. -/
abbrev Subscribers := List (String × List (String × ChanFilter))

/-- unsubscribeAction of the base server: for a string channel, delete
the subscriber entry of the node id taken from meta.id, drop the channel
key when it became empty, emit and report unsubscribed and mark the
action as processed; a non-string channel goes to wrongChannel. -/
def unsubscribeAction (subs : Subscribers) (env : String) (connected : List String)
    (a : Action) (m : Meta) : Subscribers × List Effect :=
  match a.channel with
  | none => (subs, internalWrongChannel env connected a m)
  | some ch =>
    let nodeId := idNodeId m.id
    let subs1 :=
      match lookupKey subs ch with
      | some l =>
        let l1 := eraseKey l nodeId
        if l1.isEmpty then eraseKey subs ch else setKey subs ch l1
      | none => subs
    (subs1, [Effect.emitUnsubscribed, Effect.report "unsubscribed"] ++ markAsProcessed m)

/-- A registered channel, reduced to its matcher and the observable
outcomes of its callbacks: whether access throws, what it returns and
whether it called wrongChannel; whether the filter creator exists, what
it returns or whether it throws; whether load exists, the actions it
sends back or whether it throws; and the finally callback. -/
structure ChannelDef where
  matchesName : String → Bool
  accessThrows : Bool := false
  accessResult : Bool := false
  accessCallsWrongChannel : Bool := false
  hasFilter : Bool := false
  filterThrows : Bool := false
  filterValue : ChanFilter := ChanFilter.val true
  hasLoad : Bool := false
  loadThrows : Bool := false
  loadAdds : List (Action × Meta) := []
  hasFinally : Bool := false
  finallyThrows : Bool := false

/-- The channel list scanned by subscribeAction: registered channels in
order, then the catch-all subscriber whose pattern matches every name. -/
def allChannels (channels : List ChannelDef) (otherSub : Option ChannelDef) : List ChannelDef :=
  channels ++ (match otherSub with | some o => [o] | none => [])

/-- The body run by subscribeAction on the first matching channel:
access outcome and wrongChannels flag checks, origin client presence
check, filter creation, registration of the subscriber entry (reporting
subscribed and emitting subscribing for a fresh channel first), load
with its sendBack appends, the subscribed event and markAsProcessed; a
throw after registration rolls back through unsubscribeAction; the
finally callback always runs last. -/
def subscribeMatched (env : String) (connected : List String) (subs : Subscribers)
    (ch : ChannelDef) (chName : String) (a : Action) (m : Meta)
    (start now : Nat) : Subscribers × List Effect :=
  if ch.accessThrows then
    (subs, [Effect.emitError] ++ undoEffects m "error" ++
      finallyEffects ch.hasFinally ch.finallyThrows)
  else if ch.accessCallsWrongChannel then
    (subs, internalWrongChannel env connected a m ++
      finallyEffects ch.hasFinally ch.finallyThrows)
  else if !ch.accessResult then
    (subs, denyAction env connected m ++ finallyEffects ch.hasFinally ch.finallyThrows)
  else if !(connected.contains (parseId m.id).clientId) then
    (subs, [Effect.emitSubscriptionCancelled] ++ finallyEffects ch.hasFinally ch.finallyThrows)
  else if ch.hasFilter && ch.filterThrows then
    (subs, [Effect.emitError] ++ undoEffects m "error" ++
      finallyEffects ch.hasFinally ch.finallyThrows)
  else
    let nodeId := (parseId m.id).nodeId
    let filterVal := if ch.hasFilter then ch.filterValue else ChanFilter.val true
    let isNew := (lookupKey subs chName).isNone
    let chanMap := (lookupKey subs chName).getD []
    let subs1 := setKey subs chName (setKey chanMap nodeId filterVal)
    let pre := [Effect.report "subscribed"] ++ (if isNew then [Effect.emitSubscribing] else [])
    if ch.hasLoad && ch.loadThrows then
      let r := unsubscribeAction subs1 env connected a m
      (r.1, pre ++ [Effect.emitError] ++ undoEffects m "error" ++ r.2 ++
        finallyEffects ch.hasFinally ch.finallyThrows)
    else
      let loadEffs := if ch.hasLoad then ch.loadAdds.map (fun p => Effect.addToLog p.1 p.2) else []
      (subs1, pre ++ loadEffs ++ [Effect.emitSubscribed (now - start)] ++
        markAsProcessed m ++ finallyEffects ch.hasFinally ch.finallyThrows)

/-- subscribeAction of the base server: a non-string channel goes to
wrongChannel, otherwise the matchers are scanned in registration order
and the first match wins; with no match wrongChannel runs. -/
def subscribeAction (channels : List ChannelDef) (otherSub : Option ChannelDef)
    (env : String) (connected : List String) (subs : Subscribers)
    (a : Action) (m : Meta) (start now : Nat) : Subscribers × List Effect :=
  match a.channel with
  | none => (subs, internalWrongChannel env connected a m)
  | some chName =>
    match (allChannels channels otherSub).find? (fun c => c.matchesName chName) with
    | some ch => subscribeMatched env connected subs ch chName a m start now
    | none => (subs, internalWrongChannel env connected a m)

/-- The status dispatch closing the add handler of the base server: for
a waiting entry, no processor goes to internalUnkownType, a processor
with process goes to processAction, one without is finished immediately;
a non-waiting entry only gets the processed event and the finally
callback. -/
def addStatusDispatch (cfg : TypesConfig) (env : String) (connectedClientIds : List String)
    (processOk finallyThrows : Bool) (processing : Nat) (a : Action) (m : Meta)
    (start now : Nat) : Nat × List Effect :=
  if m.status == some "waiting" then
    match getProcessor cfg a.type with
    | none => (processing, internalUnkownType env connectedClientIds a m)
    | some proc =>
      if proc.hasProcess then processAction proc processOk finallyThrows processing m start now
      else
        (processing, [Effect.emitProcessed 0] ++ finallyEffects proc.hasFinally finallyThrows ++
          markAsProcessed m)
  else
    (processing, [Effect.emitProcessed 0] ++
      finallyEffects ((getProcessor cfg a.type).elim false Processor.hasFinally) finallyThrows)

/-- The bruteforce bookkeeping: per-ip failed attempt counters and the
scheduled decay timeouts (ip and delay in milliseconds). -/
structure AuthState where
  authAttempts : List (String × Nat) := []
  timeouts : List (String × Nat) := []
  deriving Repr, DecidableEq

/-- The attempt count the code observes for an ip (a missing entry reads
as zero through the or-zero default). -/
def getAttempts (st : AuthState) (ip : String) : Nat :=
  (lookupKey st.authAttempts ip).getD 0

/-- rememberBadAuth of the base server: increment the counter of the ip
and schedule a decay step after 3000 milliseconds. -/
def rememberBadAuth (st : AuthState) (ip : String) : AuthState :=
  { st with
    authAttempts := setKey st.authAttempts ip (getAttempts st ip + 1)
    timeouts := st.timeouts ++ [(ip, 3000)] }

/-- The decay callback scheduled by rememberBadAuth: delete the entry at
count one, otherwise decrement.  A fire on a missing entry would store
NaN in JS; NaN reads as falsy for isBruteforce and is reset by the next
increment, so leaving the state unchanged models it exactly (and the
case is unreachable, since pending decays never exceed the count). -/
def decayStep (st : AuthState) (ip : String) : AuthState :=
  match lookupKey st.authAttempts ip with
  | some 1 => { st with authAttempts := eraseKey st.authAttempts ip }
  | some n => { st with authAttempts := setKey st.authAttempts ip (n - 1) }
  | none => st

/-- isBruteforce of the base server: the truthiness of
attempts && attempts >= 3 (an absent or zero counter is falsy). -/
def isBruteforce (st : AuthState) (ip : String) : Bool :=
  match lookupKey st.authAttempts ip with
  | some n => decide (3 ≤ n)
  | none => false

/-- getUser of the earlier base server generation paired with
src/client.js: the prefix of the node id before the first colon, none
models the JS false returned when there is no colon. -/
def getUser (nodeId : String) : Option String :=
  match splitS nodeId ':' with
  | [] => none
  | [_] => none
  | s :: _ => some s

/-- A client of the earlier generation (src/client.js): registry key,
identity filled on authentication, the zombie and destroyed flags and
the connection state of its sync peer. -/
structure OClient where
  key : String
  nodeId : Option String := none
  user : Option String := none
  zombie : Bool := false
  destroyed : Bool := false
  syncConnected : Bool := true
  deriving Repr, DecidableEq

/-- The application state read by the earlier client: the destroy flag
of the server and the nodeId and key registries. -/
structure OApp where
  destroing : Bool := false
  nodeIds : List (String × OClient) := []
  clients : List (String × OClient) := []
  deriving Repr, DecidableEq

/-- Observable effects of the earlier client: reporter calls tagged with
the client key, and the destruction of its sync peer. -/
inductive OEffect where
  | report (name : String) (who : String)
  | syncDestroy (who : String)
  deriving Repr, DecidableEq

/-- destroy of src/client.js: set the destroyed flag, report disconnect
unless the server is shutting down or the client is a zombie, destroy a
connected sync peer, then remove the client from the nodeId and key
registries. -/
def clientDestroy (app : OApp) (c : OClient) : OApp × OClient × List OEffect :=
  let c1 := { c with destroyed := true }
  let e1 := if !app.destroing && !c1.zombie then [OEffect.report "disconnect" c1.key] else []
  let e2 := if c1.syncConnected then [OEffect.syncDestroy c1.key] else []
  let app1 :=
    match c1.nodeId with
    | some nid => { app with nodeIds := eraseKey app.nodeIds nid }
    | none => app
  let app2 := { app1 with clients := eraseKey app1.clients c1.key }
  (app2, c1, e1 ++ e2)

/-- The result-true branch of auth in src/client.js: an existing client
under the same nodeId gets its zombie flag, is reported as zombie and is
destroyed; then the new client is stored under the nodeId and reported
as authenticated.  The client argument already carries the nodeId and
user set at the top of auth.  Returns the new application state, the
final state of the evicted client when there was one, and the effect
trace. -/
def authSuccess (app : OApp) (c : OClient) (nid : String) :
    OApp × Option OClient × List OEffect :=
  match lookupKey app.nodeIds nid with
  | some z =>
    let z1 := { z with zombie := true }
    let appZ := { app with nodeIds := setKey app.nodeIds nid z1 }
    let r := clientDestroy appZ z1
    let app2 := { r.1 with nodeIds := setKey r.1.nodeIds nid c }
    (app2, some r.2.1, [OEffect.report "zombie" z1.key] ++ r.2.2 ++
      [OEffect.report "authenticated" c.key])
  | none =>
    ({ app with nodeIds := setKey app.nodeIds nid c }, none,
      [OEffect.report "authenticated" c.key])

/-- Meta of the earlier wire generation as the inbound filter sees it:
the set of property keys and the nodeId stored at index one of the
array-valued id. -/
structure OMeta where
  keys : List String
  idNodeId : String
  deriving Repr, DecidableEq

/-- filter of src/client.js: deny when the client has a truthy user
different from the user parsed out of the meta id, or when any meta key
other than id and time is present; denial reports denied and the pair is
not added to the log. -/
def clientFilter (c : OClient) (m : OMeta) : Bool × List OEffect :=
  let wrongUser := truthyS c.user && (c.user != getUser m.idNodeId)
  let wrongMeta := m.keys.any (fun k => k != "id" && k != "time")
  if wrongUser || wrongMeta then (false, [OEffect.report "denied" c.key])
  else (true, [])

/-- Modelled from the spec: the admission predicate that claim C8
asserts of the inbound filter — every meta key is one of id, time and
subprotocol, and the identity embedded in meta.id belongs to the
authenticated client (its nodeId, or another node of the same clientId,
spec 4.6). -/
def claimMetaAdmissible (c : OClient) (m : OMeta) : Bool :=
  m.keys.all (fun k => k == "id" || k == "time" || k == "subprotocol") &&
    (c.nodeId == some m.idNodeId ||
      c.nodeId.map (fun n => (parseId n).clientId) == some (parseId m.idNodeId).clientId)

/-- Concrete client used by the counterexample of claim C8:
authenticated as user 10 under node id 10:uuid. -/
def c8client : OClient := { key := "1", nodeId := some "10:uuid", user := some "10" }

/-- Concrete inbound meta used by the counterexample of claim C8:
exactly the keys id, time and subprotocol, sent from the own node of the
client. -/
def c8meta : OMeta := { keys := ["id", "time", "subprotocol"], idNodeId := "10:uuid" }

/-- Fixture for the claim C7 witness: the earlier client holding the
node id. -/
def c7prior : OClient := { key := "1", nodeId := some "10:a", user := some "10" }

/-- Fixture for the claim C7 witness: the connection authenticating with
the same node id. -/
def c7fresh : OClient := { key := "2", nodeId := some "10:a", user := some "10" }

/-- Fixture for the claim C7 witness: registries before the second
authentication. -/
def c7app : OApp := { nodeIds := [("10:a", c7prior)], clients := [("1", c7prior)] }

/-- Fixture for the claim C1 witness: a client of user 20. -/
def w1cA : SClient := { key := "1", clientId := "20:a" }

/-- Fixture for the claim C1 witness: a client of user 30. -/
def w1cB : SClient := { key := "2", clientId := "30:b" }

/-- Fixture for the claim C1 witness: registries where client 20:a is
reachable through all four address sets and the origin 10:uuid is itself
subscribed. -/
def w1state : FanoutState :=
  { nodeIds := [("20:a:n", w1cA)]
    clientIds := [("20:a", w1cA), ("30:b", w1cB)]
    userIds := [("20", [w1cA])]
    subscribers := [("room",
      [("20:a:n", ChanFilter.val true), ("30:b:x", ChanFilter.val true),
        ("10:uuid:q", ChanFilter.val true)])] }

/-- Fixture for the claim C1 witness: a meta addressing overlapping
target sets. -/
def w1meta : Meta :=
  { id := "1 10:uuid 0", nodes := some ["20:a:n"], clients := some ["20:a"],
    users := some ["20"], channels := some ["room"] }

/-- Fixture for the claim C4 witness. -/
def w4action : Action := { type := "FOO" }

/-- Fixture for the claim C4 witness. -/
def w4meta : Meta := { id := "1 10:uuid 0", status := some "waiting" }

/-- Fixture for the claim C5 witness: a channel granting access. -/
def w5chan : ChannelDef := { matchesName := fun s => s == "user/10", accessResult := true }

/-- Fixture for the claim C5 witness. -/
def w5meta : Meta := { id := "1 10:uuid 0" }

/-- Fixture for the claim C5 witness. -/
def w5action : Action := { type := "logux/subscribe", channel := some "user/10" }

/-- Fixture for the claim C6 witness: a single subscriber on one
channel. -/
def w6subs : Subscribers := [("user/10", [("10:uuid", ChanFilter.val true)])]

/-- Fixture for the claim C6 witness. -/
def w6action : Action := { type := "logux/unsubscribe", channel := some "user/10" }

/-- Fixture for the claim C6 witness. -/
def w6meta : Meta := { id := "2 10:uuid 0" }

/-!
Theorems.  Helper lemmas about the association list operations come
first, then one theorem per claim with its witness.
-/

/-- Lookup distributes over append, first list wins. -/
theorem lookupKey_append {α : Type} (l1 l2 : List (String × α)) (k : String) :
    lookupKey (l1 ++ l2) k =
      (match lookupKey l1 k with | some v => some v | none => lookupKey l2 k) := by
  induction l1 with
  | nil => simp [lookupKey]
  | cons p rest ih => cases h : p.1 == k <;> simp [lookupKey, h, ih]

/-- Erasing a key removes it from lookups. -/
theorem lookupKey_eraseKey_self {α : Type} (l : List (String × α)) (k : String) :
    lookupKey (eraseKey l k) k = none := by
  induction l with
  | nil => simp [lookupKey, eraseKey]
  | cons p rest ih => cases h : p.1 == k <;> simp [lookupKey, eraseKey, h, ih]

/-- Erasing a key leaves other lookups unchanged. -/
theorem lookupKey_eraseKey_ne {α : Type} (l : List (String × α)) (k k2 : String)
    (h : k2 ≠ k) : lookupKey (eraseKey l k) k2 = lookupKey l k2 := by
  induction l with
  | nil => simp [eraseKey]
  | cons p rest ih =>
    cases h1 : p.1 == k
    · cases h2 : p.1 == k2 <;> simp [lookupKey, eraseKey, h1, h2, ih]
    · have hk : p.1 = k := by simpa using h1
      have h2 : (p.1 == k2) = false := by
        simp [hk]
        exact fun hh => h hh.symm
      simp [lookupKey, eraseKey, h1, h2, ih]

/-- Lookup after assignment of the same key. -/
theorem lookupKey_setKey_self {α : Type} (l : List (String × α)) (k : String) (v : α) :
    lookupKey (setKey l k v) k = some v := by
  simp [setKey, lookupKey_append, lookupKey_eraseKey_self, lookupKey]

/-- Lookup after assignment of a different key. -/
theorem lookupKey_setKey_ne {α : Type} (l : List (String × α)) (k k2 : String) (v : α)
    (h : k2 ≠ k) : lookupKey (setKey l k v) k2 = lookupKey l k2 := by
  have hne : (k == k2) = false := by
    simp
    exact fun hh => h hh.symm
  cases hl : lookupKey l k2 <;>
    simp [setKey, lookupKey_append, lookupKey_eraseKey_ne l k k2 h, lookupKey, hne, hl]

/-- A successful lookup comes from a binding of the list. -/
theorem lookupKey_mem {α : Type} {l : List (String × α)} {k : String} {v : α}
    (h : lookupKey l k = some v) : (k, v) ∈ l := by
  induction l with
  | nil => simp [lookupKey] at h
  | cons p rest ih =>
    by_cases hk : p.1 = k
    · rw [lookupKey, if_pos (by simp [hk])] at h
      have hv : p.2 = v := by simpa using h
      have : p = (k, v) := by
        cases p
        simp_all
      simp [this]
    · rw [lookupKey, if_neg (by simp [hk])] at h
      exact List.mem_cons_of_mem _ (ih h)

/-- Claim C9: isBruteforce is true exactly when the recorded count of an
ip is at least three; rememberBadAuth increments the count by one and
schedules a 3000 millisecond decay; a decay step decrements the count
and deletes the entry when it stood at one; and from a clean slate three
failures trip the guard while the next decay clears it below three. -/
theorem bruteforce_guard (st : AuthState) (ip : String) :
    (isBruteforce st ip = true ↔ 3 ≤ getAttempts st ip) ∧
    getAttempts (rememberBadAuth st ip) ip = getAttempts st ip + 1 ∧
    (rememberBadAuth st ip).timeouts = st.timeouts ++ [(ip, 3000)] ∧
    lookupKey (decayStep st ip).authAttempts ip =
      (match lookupKey st.authAttempts ip with
        | some 1 => none
        | some n => some (n - 1)
        | none => none) ∧
    (lookupKey st.authAttempts ip = none →
      isBruteforce (rememberBadAuth (rememberBadAuth (rememberBadAuth st ip) ip) ip) ip
        = true ∧
      isBruteforce
        (decayStep (rememberBadAuth (rememberBadAuth (rememberBadAuth st ip) ip) ip) ip) ip
        = false) := by
  have hrem : ∀ s : AuthState, lookupKey (rememberBadAuth s ip).authAttempts ip
      = some (getAttempts s ip + 1) := by
    intro s
    simp [rememberBadAuth, lookupKey_setKey_self]
  refine ⟨?_, ?_, rfl, ?_, ?_⟩
  · unfold isBruteforce getAttempts
    cases h : lookupKey st.authAttempts ip <;> simp [h]
  · simp [getAttempts, hrem st]
  · cases h : lookupKey st.authAttempts ip with
    | none => simp [decayStep, h]
    | some n =>
      rcases n with _ | _ | k
      · simp [decayStep, h, lookupKey_setKey_self]
      · simp [decayStep, h, lookupKey_eraseKey_self]
      · simp [decayStep, h, lookupKey_setKey_self]
  · intro h0
    have g0 : getAttempts st ip = 0 := by simp [getAttempts, h0]
    have l1 : lookupKey (rememberBadAuth st ip).authAttempts ip = some 1 := by
      rw [hrem st, g0]
    have g1 : getAttempts (rememberBadAuth st ip) ip = 1 := by simp [getAttempts, l1]
    have l2 : lookupKey (rememberBadAuth (rememberBadAuth st ip) ip).authAttempts ip
        = some 2 := by
      rw [hrem (rememberBadAuth st ip), g1]
    have g2 : getAttempts (rememberBadAuth (rememberBadAuth st ip) ip) ip = 2 := by
      simp [getAttempts, l2]
    have l3 : lookupKey
        (rememberBadAuth (rememberBadAuth (rememberBadAuth st ip) ip) ip).authAttempts ip
        = some 3 := by
      rw [hrem (rememberBadAuth (rememberBadAuth st ip) ip), g2]
    constructor
    · simp [isBruteforce, l3]
    · simp [decayStep, l3, isBruteforce, lookupKey_setKey_self]

/-- Witness for the bruteforce theorem at a clean state and a concrete
ip. -/
theorem bruteforce_guard_witness :
    isBruteforce ({ } : AuthState) "8.8.8.8" = true ↔
      3 ≤ getAttempts ({ } : AuthState) "8.8.8.8" :=
  (bruteforce_guard { } "8.8.8.8").1

/-- Claim C10: every logux/undo produced by undo is passed to the log
with a meta of status processed copying the users, nodes, reasons and
channels of the undone meta, and with a clients list holding the clients
of the undone meta plus the clientId parsed from its id, while the
action references the undone id. -/
theorem undo_reaches_origin (m : Meta) (reason : String) :
    (undo m reason).1.type = "logux/undo" ∧
    (undo m reason).1.id = some m.id ∧
    (undo m reason).1.reason = some reason ∧
    (undo m reason).2.status = some "processed" ∧
    (undo m reason).2.users = m.users ∧
    (undo m reason).2.nodes = m.nodes ∧
    (undo m reason).2.reasons = m.reasons ∧
    (undo m reason).2.channels = m.channels ∧
    (undo m reason).2.clients = some (m.clients.getD [] ++ [(parseId m.id).clientId]) ∧
    (parseId m.id).clientId ∈ (undo m reason).2.clients.getD [] ∧
    ∀ x ∈ m.clients.getD [], x ∈ (undo m reason).2.clients.getD [] := by
  refine ⟨rfl, rfl, rfl, rfl, rfl, rfl, rfl, rfl, rfl, ?_, ?_⟩
  · simp [undo, buildUndo]
  · intro x hx
    simp [undo, buildUndo]
    exact Or.inl hx

/-- Witness for the undo theorem at a concrete meta. -/
theorem undo_reaches_origin_witness :
    (undo { id := "1 10:uuid 0", clients := some ["5:c"] } "denied").2.clients
      = some (["5:c"] ++ [(parseId "1 10:uuid 0").clientId]) :=
  ((undo_reaches_origin { id := "1 10:uuid 0", clients := some ["5:c"] } "denied").2.2.2.2.2.2.2.2).1

/-- Claim C8 counterexample: a meta carrying exactly the keys id, time
and subprotocol, sent by the client owning the identity in its id, is
admissible per the claim but the filter of src/client.js denies it and
reports denied. -/
theorem clientFilter_denies_subprotocol_meta :
    claimMetaAdmissible c8client c8meta = true ∧
    (clientFilter c8client c8meta).1 = false ∧
    (clientFilter c8client c8meta).2 = [OEffect.report "denied" "1"] := by
  refine ⟨by decide, by decide, by decide⟩

/-- Claim C8 amended: the filter of src/client.js admits a pair exactly
when every meta key is id or time (a subprotocol key is denied as well)
and, when the client carries a truthy user, the user prefix of the
nodeId inside meta.id equals it (node and client identity are not
otherwise compared); a denied pair yields exactly the denied report. -/
theorem clientFilter_characterization (c : OClient) (m : OMeta) :
    (clientFilter c m).1 =
      ((!truthyS c.user || c.user == getUser m.idNodeId) &&
        m.keys.all (fun k => k == "id" || k == "time")) ∧
    (clientFilter c m).2 =
      (if (clientFilter c m).1 then [] else [OEffect.report "denied" c.key]) := by
  constructor
  · unfold clientFilter
    cases hu : truthyS c.user <;>
      cases hq : c.user == getUser m.idNodeId <;>
        cases hm : m.keys.any (fun k => k != "id" && k != "time") <;>
          simp_all [List.all_eq_not_any_not, bne] <;> tauto
  · unfold clientFilter
    cases hc : (truthyS c.user && (c.user != getUser m.idNodeId))
        || m.keys.any (fun k => k != "id" && k != "time") <;>
      simp [hc]

/-- Witness for the amended claim C8 theorem at a concrete pair. -/
theorem clientFilter_characterization_witness :
    (clientFilter c8client { keys := ["id", "time"], idNodeId := "10:uuid" }).1 =
      ((!truthyS c8client.user ||
          c8client.user == getUser ("10:uuid" : String)) &&
        (["id", "time"] : List String).all (fun k => k == "id" || k == "time")) :=
  (clientFilter_characterization c8client { keys := ["id", "time"], idNodeId := "10:uuid" }).1

/-- The send closure preserves the fan-out invariant. -/
theorem sendOne_inv {idFrom : String} {c : SClient} {acc : SendAcc}
    (h : SendInv idFrom acc) : SendInv idFrom (sendOne c acc) := by
  obtain ⟨h1, h2, h3, h4⟩ := h
  unfold sendOne
  split
  · exact ⟨h1, h2, h3, h4⟩
  · next hc =>
    refine ⟨List.mem_cons_of_mem _ h1, ?_, ?_, ?_⟩
    · simp only [List.map_append, List.map_cons, List.map_nil, List.nodup_append]
      refine ⟨h2, List.nodup_singleton _, ?_⟩
      intro x hx hx1
      have hxc : x = c.clientId := by simpa using hx1
      obtain ⟨d, hd, hdc⟩ := List.mem_map.mp hx
      exact hc (hxc ▸ hdc ▸ h3 d hd)
    · intro d hd
      rcases List.mem_append.mp hd with hd1 | hd2
      · exact List.mem_cons_of_mem _ (h3 d hd1)
      · have : d = c := by simpa using hd2
        simp [this]
    · intro d hd
      rcases List.mem_append.mp hd with hd1 | hd2
      · exact h4 d hd1
      · have hdc : d = c := by simpa using hd2
        subst hdc
        exact fun heq => hc (heq ▸ h1)

/-- The nodes branch preserves the fan-out invariant. -/
theorem sendNodes_inv (S : FanoutState) (idFrom : String) (ids : List String)
    {acc : SendAcc} (h : SendInv idFrom acc) :
    SendInv idFrom (sendNodes S idFrom ids acc) := by
  induction ids generalizing acc with
  | nil => simpa [sendNodes] using h
  | cons id rest ih =>
    simp only [sendNodes]
    apply ih
    cases hk : lookupKey S.nodeIds id with
    | none => simpa [hk] using h
    | some c =>
      by_cases hcf : c.clientId ≠ idFrom
      · simpa [hk, hcf] using sendOne_inv h
      · simpa [hk, hcf] using h

/-- The clients branch preserves the fan-out invariant. -/
theorem sendClients_inv (S : FanoutState) (idFrom : String) (ids : List String)
    {acc : SendAcc} (h : SendInv idFrom acc) :
    SendInv idFrom (sendClients S idFrom ids acc) := by
  induction ids generalizing acc with
  | nil => simpa [sendClients] using h
  | cons id rest ih =>
    simp only [sendClients]
    apply ih
    cases hk : lookupKey S.clientIds id with
    | none => simpa [hk] using h
    | some c =>
      by_cases hcf : id ≠ idFrom
      · simpa [hk, hcf] using sendOne_inv h
      · simpa [hk, hcf] using h

/-- The per-user loop preserves the fan-out invariant. -/
theorem sendUserClients_inv (idFrom : String) (cs : List SClient) {acc : SendAcc}
    (h : SendInv idFrom acc) : SendInv idFrom (sendUserClients idFrom cs acc) := by
  induction cs generalizing acc with
  | nil => simpa [sendUserClients] using h
  | cons c rest ih =>
    simp only [sendUserClients]
    apply ih
    by_cases hcf : c.clientId ≠ idFrom
    · simpa [hcf] using sendOne_inv h
    · simpa [hcf] using h

/-- The users branch preserves the fan-out invariant. -/
theorem sendUsers_inv (S : FanoutState) (idFrom : String) (uids : List String)
    {acc : SendAcc} (h : SendInv idFrom acc) :
    SendInv idFrom (sendUsers S idFrom uids acc) := by
  induction uids generalizing acc with
  | nil => simpa [sendUsers] using h
  | cons uid rest ih =>
    simp only [sendUsers]
    apply ih
    cases hk : lookupKey S.userIds uid with
    | none => simpa [hk] using h
    | some cs => simpa [hk] using sendUserClients_inv idFrom cs h

/-- The subscriber loop preserves the fan-out invariant when the
clientIds registry is keyed by the clientId of its clients. -/
theorem sendChanSubs_inv (S : FanoutState) (a : Action) (m : Meta)
    (hwf : ∀ p ∈ S.clientIds, p.2.clientId = p.1)
    (l : List (String × ChanFilter)) {idFrom : String} {acc : SendAcc}
    (h : SendInv idFrom acc) : SendInv idFrom (sendChanSubs S a m l acc) := by
  induction l generalizing acc with
  | nil => simpa [sendChanSubs] using h
  | cons p rest ih =>
    simp only [sendChanSubs]
    apply ih
    by_cases hmem : (parseId p.1).clientId ∈ acc.1
    · simpa [hmem] using h
    · cases hk : lookupKey S.clientIds (parseId p.1).clientId with
      | none => simpa [hmem, hk] using h
      | some c =>
        have hcid : c.clientId = (parseId p.1).clientId := hwf _ (lookupKey_mem hk)
        cases hb : evalFilter p.2 a m
        · simpa [hmem, hk, hb] using h
        · have hnm : c.clientId ∉ acc.1 := by rw [hcid]; exact hmem
          have h5 := sendOne_inv (c := c) h
          rw [sendOne, if_neg hnm] at h5
          rw [hcid] at h5
          simpa [hmem, hk, hb] using h5

/-- The channels branch preserves the fan-out invariant. -/
theorem sendChannels_inv (S : FanoutState) (a : Action) (m : Meta)
    (hwf : ∀ p ∈ S.clientIds, p.2.clientId = p.1)
    (chs : List String) {idFrom : String} {acc : SendAcc}
    (h : SendInv idFrom acc) : SendInv idFrom (sendChannels S a m chs acc) := by
  induction chs generalizing acc with
  | nil => simpa [sendChannels] using h
  | cons ch rest ih =>
    simp only [sendChannels]
    apply ih
    cases hk : lookupKey S.subscribers ch with
    | none => simpa [hk] using h
    | some l => simpa [hk] using sendChanSubs_inv S a m hwf l h

/-- Claim C1: in one sendAction call, each client receives onAdd at most
once even when it matches several of the nodes, clients, users and
channels address sets, and no client whose clientId is the one parsed
from meta.id receives anything, provided the clientIds registry is keyed
by the clientId of its clients. -/
theorem sendAction_dedup_no_origin (S : FanoutState) (a : Action) (m : Meta)
    (hwf : ∀ p ∈ S.clientIds, p.2.clientId = p.1) :
    ((sendAction S a m).map SClient.clientId).Nodup ∧
    ∀ c ∈ sendAction S a m, c.clientId ≠ (parseId m.id).clientId := by
  have h0 : SendInv (parseId m.id).clientId ([(parseId m.id).clientId], []) := by
    refine ⟨by simp, by simp, ?_, ?_⟩ <;> intro c hc <;> simp at hc
  have stepN : ∀ acc : SendAcc, SendInv (parseId m.id).clientId acc →
      SendInv (parseId m.id).clientId
        (match m.nodes with
          | some ns => sendNodes S (parseId m.id).clientId ns acc
          | none => acc) := by
    intro acc h
    cases m.nodes with
    | none => exact h
    | some ns => exact sendNodes_inv S _ ns h
  have stepC : ∀ acc : SendAcc, SendInv (parseId m.id).clientId acc →
      SendInv (parseId m.id).clientId
        (match m.clients with
          | some cs => sendClients S (parseId m.id).clientId cs acc
          | none => acc) := by
    intro acc h
    cases m.clients with
    | none => exact h
    | some cs => exact sendClients_inv S _ cs h
  have stepU : ∀ acc : SendAcc, SendInv (parseId m.id).clientId acc →
      SendInv (parseId m.id).clientId
        (match m.users with
          | some us => sendUsers S (parseId m.id).clientId us acc
          | none => acc) := by
    intro acc h
    cases m.users with
    | none => exact h
    | some us => exact sendUsers_inv S _ us h
  have stepCh : ∀ acc : SendAcc, SendInv (parseId m.id).clientId acc →
      SendInv (parseId m.id).clientId
        (match m.channels with
          | some chs => sendChannels S a m chs acc
          | none => acc) := by
    intro acc h
    cases m.channels with
    | none => exact h
    | some chs => exact sendChannels_inv S a m hwf chs h
  have key := stepCh _ (stepU _ (stepC _ (stepN _ h0)))
  exact ⟨key.2.1, key.2.2.2⟩

/-- Witness for the fan-out theorem at a registry where one client
matches all four address sets and the origin is itself subscribed. -/
theorem sendAction_dedup_no_origin_witness :
    (∀ p ∈ w1state.clientIds, p.2.clientId = p.1) ∧
    ((sendAction w1state { type := "A" } w1meta).map SClient.clientId).Nodup :=
  ⟨by decide, (sendAction_dedup_no_origin w1state { type := "A" } w1meta (by decide)).1⟩

/-- Claim C5: for a logux/subscribe handled by the first matching
channel, when its access callback returns true without calling
wrongChannel, the originating client is connected and neither the filter
creator nor load throws, exactly one subscribed event fires, the action
is marked processed exactly once and a subscriber entry is recorded for
the originating node; when access returns false, exactly one denied
report and exactly one denied-reason undo are produced and the
subscriber table is unchanged. -/
theorem subscribe_access_outcomes (channels : List ChannelDef) (otherSub : Option ChannelDef)
    (env : String) (connected : List String) (subs : Subscribers)
    (a : Action) (m : Meta) (start now : Nat) (chName : String) (ch : ChannelDef)
    (hch : a.channel = some chName)
    (hfind : (allChannels channels otherSub).find? (fun c => c.matchesName chName) = some ch)
    (hat : ch.accessThrows = false)
    (hwc : ch.accessCallsWrongChannel = false)
    (hft : ch.filterThrows = false)
    (hlt : ch.loadThrows = false)
    (hconn : connected.contains (parseId m.id).clientId = true) :
    (ch.accessResult = true →
      ((subscribeAction channels otherSub env connected subs a m start now).2.countP
        (fun e => match e with | Effect.emitSubscribed _ => true | _ => false)) = 1 ∧
      ((subscribeAction channels otherSub env connected subs a m start now).2.countP
        (fun e => e == Effect.changeMeta m.id "processed")) = 1 ∧
      (lookupKey
        ((lookupKey (subscribeAction channels otherSub env connected subs a m start now).1
          chName).getD []) (parseId m.id).nodeId).isSome = true) ∧
    (ch.accessResult = false →
      ((subscribeAction channels otherSub env connected subs a m start now).2.countP
        (fun e => e == Effect.report "denied")) = 1 ∧
      ((subscribeAction channels otherSub env connected subs a m start now).2.countP
        (fun e => match e with
          | Effect.addToLog a2 _ =>
            a2.type == "logux/undo" && a2.id == some m.id && a2.reason == some "denied"
          | _ => false)) = 1 ∧
      (subscribeAction channels otherSub env connected subs a m start now).1 = subs) := by
  unfold subscribeAction
  rw [hch]
  dsimp only
  rw [hfind]
  dsimp only
  constructor
  · intro hacc
    unfold subscribeMatched
    simp only [hat, hwc, hacc, hft, hconn, hlt, Bool.not_true, Bool.not_false,
      Bool.and_false, Bool.false_eq_true, if_false, if_true, ite_false, ite_true]
    refine ⟨?_, ?_, ?_⟩
    · simp only [markAsProcessed, finallyEffects, List.countP_append]
      split_ifs <;> simp [List.countP_map, Function.comp]
    · simp only [markAsProcessed, finallyEffects, List.countP_append]
      split_ifs <;> simp [List.countP_map, Function.comp]
    · simp [lookupKey_setKey_self]
  · intro hacc
    unfold subscribeMatched
    simp only [hat, hwc, hacc, Bool.not_false, Bool.false_eq_true, if_false, if_true,
      ite_false, ite_true]
    refine ⟨?_, ?_, by trivial⟩
    · simp only [denyAction, undoEffects, undo, buildUndo, debugActionError,
        finallyEffects, List.countP_append]
      split_ifs <;> simp
    · simp only [denyAction, undoEffects, undo, buildUndo, debugActionError,
        finallyEffects, List.countP_append]
      split_ifs <;> simp

/-- Witness for the subscribe theorem at a concrete channel granting
access. -/
theorem subscribe_access_outcomes_witness :
    w5action.channel = some "user/10" ∧
    (allChannels [w5chan] none).find? (fun c => c.matchesName "user/10") = some w5chan ∧
    w5chan.accessResult = true ∧
    (["10:uuid"] : List String).contains (parseId w5meta.id).clientId = true ∧
    ((subscribeAction [w5chan] none "production" ["10:uuid"] [] w5action w5meta 0 0).2.countP
      (fun e => match e with | Effect.emitSubscribed _ => true | _ => false)) = 1 :=
  ⟨rfl, rfl, rfl, by decide,
    ((subscribe_access_outcomes [w5chan] none "production" ["10:uuid"] [] w5action w5meta 0 0
      "user/10" w5chan rfl rfl rfl rfl rfl rfl (by decide)).1 rfl).1⟩

/-- Claim C6: unsubscribeAction on a string channel removes exactly the
subscriber entry of the unsubscribing node, removes the channel key when
that node was its last subscriber, leaves every other channel untouched,
and always emits unsubscribed, reports unsubscribed and marks the action
as processed. -/
theorem unsubscribe_symmetry (subs : Subscribers) (env : String)
    (connected : List String) (a : Action) (m : Meta) (chName : String)
    (hch : a.channel = some chName) :
    lookupKey (unsubscribeAction subs env connected a m).1 chName
      = (match lookupKey subs chName with
        | none => none
        | some l =>
          if (eraseKey l (idNodeId m.id)).isEmpty then none
          else some (eraseKey l (idNodeId m.id))) ∧
    (∀ c0, c0 ≠ chName →
      lookupKey (unsubscribeAction subs env connected a m).1 c0 = lookupKey subs c0) ∧
    lookupKey ((lookupKey (unsubscribeAction subs env connected a m).1 chName).getD [])
      (idNodeId m.id) = none ∧
    ((unsubscribeAction subs env connected a m).2.countP
      (fun e => e == Effect.emitUnsubscribed)) = 1 ∧
    ((unsubscribeAction subs env connected a m).2.countP
      (fun e => e == Effect.report "unsubscribed")) = 1 ∧
    ((unsubscribeAction subs env connected a m).2.countP
      (fun e => e == Effect.changeMeta m.id "processed")) = 1 := by
  unfold unsubscribeAction
  rw [hch]
  refine ⟨?_, ?_, ?_, ?_, ?_, ?_⟩
  · cases hl : lookupKey subs chName with
    | none => simp [hl]
    | some l =>
      cases hemp : (eraseKey l (idNodeId m.id)).isEmpty <;>
        simp [hl, hemp, lookupKey_eraseKey_self, lookupKey_setKey_self]
  · intro c0 hne
    cases hl : lookupKey subs chName with
    | none => simp [hl]
    | some l =>
      cases hemp : (eraseKey l (idNodeId m.id)).isEmpty <;>
        simp [hl, hemp, lookupKey_eraseKey_ne subs chName c0 hne,
          lookupKey_setKey_ne subs chName c0 _ hne]
  · cases hl : lookupKey subs chName with
    | none => simp [hl, lookupKey]
    | some l =>
      cases hemp : (eraseKey l (idNodeId m.id)).isEmpty <;>
        simp [hl, hemp, lookupKey_setKey_self, lookupKey_eraseKey_self, lookupKey]
  all_goals simp [markAsProcessed]

/-- Witness for the unsubscribe theorem at a concrete subscriber
table. -/
theorem unsubscribe_symmetry_witness :
    w6action.channel = some "user/10" ∧
    ((unsubscribeAction w6subs "production" [] w6action w6meta).2.countP
      (fun e => e == Effect.emitUnsubscribed)) = 1 :=
  ⟨rfl, (unsubscribe_symmetry w6subs "production" [] w6action w6meta "user/10"
    rfl).2.2.2.1⟩

/-- The resend shortcut normalizer leaves the id, status, server,
subprotocol and reasons fields untouched. -/
theorem replaceResendShortcuts_stable (m : Meta) :
    (replaceResendShortcuts m).id = m.id ∧
    (replaceResendShortcuts m).status = m.status ∧
    (replaceResendShortcuts m).server = m.server ∧
    (replaceResendShortcuts m).subprotocol = m.subprotocol ∧
    (replaceResendShortcuts m).reasons = m.reasons := by
  unfold replaceResendShortcuts
  cases h1 : truthyS m.channel <;>
    cases h2 : truthyS m.user <;>
      cases h3 : truthyS m.client <;>
        cases h4 : truthyS m.node <;>
          simp [h1, h2, h3, h4]

/-- Field equations for the resend shortcut normalizer. -/
theorem replaceResendShortcuts_fields (m : Meta) :
    (replaceResendShortcuts m).channels
      = (if truthyS m.channel then some [m.channel.getD ""] else m.channels) ∧
    (replaceResendShortcuts m).channel = (if truthyS m.channel then none else m.channel) ∧
    (replaceResendShortcuts m).users
      = (if truthyS m.user then some [m.user.getD ""] else m.users) ∧
    (replaceResendShortcuts m).user = (if truthyS m.user then none else m.user) ∧
    (replaceResendShortcuts m).clients
      = (if truthyS m.client then some [m.client.getD ""] else m.clients) ∧
    (replaceResendShortcuts m).client = (if truthyS m.client then none else m.client) ∧
    (replaceResendShortcuts m).nodes
      = (if truthyS m.node then some [m.node.getD ""] else m.nodes) ∧
    (replaceResendShortcuts m).node = (if truthyS m.node then none else m.node) := by
  unfold replaceResendShortcuts
  cases h1 : truthyS m.channel <;>
    cases h2 : truthyS m.user <;>
      cases h3 : truthyS m.client <;>
        cases h4 : truthyS m.node <;>
          simp [h1, h2, h3, h4]

/-- The preadd hook factored as the three status steps followed by the
shortcut normalizer. -/
theorem preadd_core (cfg : ServerConfig) (a : Action) (m : Meta) :
    preadd cfg a m = replaceResendShortcuts
      { m with
        server := (if truthyS m.server then m.server else some cfg.nodeId),
        status :=
          (if (idNodeId m.id == cfg.nodeId) && !truthyS cfg.backend
              && (lookupKey cfg.typesCfg.types a.type).isNone
              && (getRegexProcessor cfg.typesCfg a.type).isNone && !isLoguxType a.type then
            some "processed"
          else if !truthyS m.status && !isLoguxType a.type then some "waiting"
          else m.status),
        subprotocol :=
          (if (idNodeId m.id == cfg.nodeId) && !truthyS m.subprotocol then cfg.subprotocol
          else m.subprotocol) } := by
  unfold preadd
  cases h1 : truthyS m.server <;>
    cases hs : truthyS m.status <;>
      cases hl : isLoguxType a.type <;>
        cases ho : (idNodeId m.id == cfg.nodeId) <;>
          cases hsp : truthyS m.subprotocol <;>
            cases hb : truthyS cfg.backend <;>
              cases hlk : lookupKey cfg.typesCfg.types a.type <;>
                cases hrx : getRegexProcessor cfg.typesCfg a.type <;>
                  simp_all

/-- Claim C2: after the preadd hook, server defaults to the server
nodeId; status becomes waiting for a non-logux action that had none, and
is short-circuited to processed for an entry originating on this server
when there is no backend, no exact and no regex processor and the action
is not logux-prefixed; locally originated entries get the configured
subprotocol by default; and each singular resend shortcut field is
replaced by its one-element plural array. -/
theorem preadd_contract (cfg : ServerConfig) (a : Action) (m : Meta) :
    (preadd cfg a m).server = (if truthyS m.server then m.server else some cfg.nodeId) ∧
    (preadd cfg a m).status =
      (if (idNodeId m.id == cfg.nodeId) && !truthyS cfg.backend
          && (lookupKey cfg.typesCfg.types a.type).isNone
          && (getRegexProcessor cfg.typesCfg a.type).isNone && !isLoguxType a.type then
        some "processed"
      else if !truthyS m.status && !isLoguxType a.type then some "waiting"
      else m.status) ∧
    (preadd cfg a m).subprotocol =
      (if (idNodeId m.id == cfg.nodeId) && !truthyS m.subprotocol then cfg.subprotocol
      else m.subprotocol) ∧
    (preadd cfg a m).id = m.id ∧
    (preadd cfg a m).reasons = m.reasons ∧
    (preadd cfg a m).channels
      = (if truthyS m.channel then some [m.channel.getD ""] else m.channels) ∧
    (preadd cfg a m).channel = (if truthyS m.channel then none else m.channel) ∧
    (preadd cfg a m).users = (if truthyS m.user then some [m.user.getD ""] else m.users) ∧
    (preadd cfg a m).user = (if truthyS m.user then none else m.user) ∧
    (preadd cfg a m).clients
      = (if truthyS m.client then some [m.client.getD ""] else m.clients) ∧
    (preadd cfg a m).client = (if truthyS m.client then none else m.client) ∧
    (preadd cfg a m).nodes = (if truthyS m.node then some [m.node.getD ""] else m.nodes) ∧
    (preadd cfg a m).node = (if truthyS m.node then none else m.node) := by
  rw [preadd_core cfg a m]
  refine ⟨?_, ?_, ?_, ?_, ?_, ?_, ?_, ?_, ?_, ?_, ?_, ?_, ?_⟩
  · exact ((replaceResendShortcuts_stable _).2.2.1).trans rfl
  · exact ((replaceResendShortcuts_stable _).2.1).trans rfl
  · exact ((replaceResendShortcuts_stable _).2.2.2.1).trans rfl
  · exact ((replaceResendShortcuts_stable _).1).trans rfl
  · exact ((replaceResendShortcuts_stable _).2.2.2.2).trans rfl
  · exact ((replaceResendShortcuts_fields _).1).trans (by simp)
  · exact ((replaceResendShortcuts_fields _).2.1).trans (by simp)
  · exact ((replaceResendShortcuts_fields _).2.2.1).trans (by simp)
  · exact ((replaceResendShortcuts_fields _).2.2.2.1).trans (by simp)
  · exact ((replaceResendShortcuts_fields _).2.2.2.2.1).trans (by simp)
  · exact ((replaceResendShortcuts_fields _).2.2.2.2.2.1).trans (by simp)
  · exact ((replaceResendShortcuts_fields _).2.2.2.2.2.2.1).trans (by simp)
  · exact ((replaceResendShortcuts_fields _).2.2.2.2.2.2.2).trans (by simp)

/-- Witness for the preadd theorem at a concrete server-originated
meta. -/
theorem preadd_contract_witness :
    (preadd { nodeId := "server:x", subprotocol := some "1.0.0" } w4action
        { id := "1 server:x 0" }).server
      = (if truthyS (none : Option String) then none else some "server:x") :=
  (preadd_contract { nodeId := "server:x", subprotocol := some "1.0.0" } w4action
    { id := "1 server:x 0" }).1

/-- Claim C7: when authentication succeeds while another client holds
the node id, the prior client ends zombie-flagged and destroyed, the
effect order is the zombie report, the sync teardown and only then the
authenticated report of the new client, no disconnect is reported, the
registry ends up holding the new client, and destroying a zombie client
never reports disconnect. -/
theorem auth_evicts_zombie (app : OApp) (c : OClient) (nid : String) (z : OClient)
    (hz : lookupKey app.nodeIds nid = some z) (hd : app.destroing = false) :
    (authSuccess app c nid).2.1 = some { z with zombie := true, destroyed := true } ∧
    (authSuccess app c nid).2.2 =
      [OEffect.report "zombie" z.key] ++
        (if z.syncConnected then [OEffect.syncDestroy z.key] else []) ++
        [OEffect.report "authenticated" c.key] ∧
    (∀ who, OEffect.report "disconnect" who ∉ (authSuccess app c nid).2.2) ∧
    lookupKey (authSuccess app c nid).1.nodeIds nid = some c ∧
    ∀ (app2 : OApp) (c2 : OClient), c2.zombie = true → ∀ who,
      OEffect.report "disconnect" who ∉ (clientDestroy app2 c2).2.2 := by
  have hgen : ∀ (app2 : OApp) (c2 : OClient), c2.zombie = true → ∀ who,
      OEffect.report "disconnect" who ∉ (clientDestroy app2 c2).2.2 := by
    intro app2 c2 hzb who
    cases hs : c2.syncConnected <;> simp [clientDestroy, hzb, hs]
  refine ⟨?_, ?_, ?_, ?_, hgen⟩
  · unfold authSuccess
    rw [hz]
    rfl
  · unfold authSuccess
    rw [hz]
    simp [clientDestroy, hd]
  · unfold authSuccess
    rw [hz]
    intro who
    simp [clientDestroy, hd]
  · unfold authSuccess
    rw [hz]
    simp [clientDestroy, lookupKey_setKey_self]

/-- Claim C3: processAction restores the in-flight counter, emits
exactly one processed event carrying a latency, and has exactly one
terminal outcome — the processed status change when the process callback
resolves, or the error status change plus the error-reason undo plus an
error event when it throws; the only further error events come from a
throwing finally callback. -/
theorem processAction_terminal (proc : Processor) (processOk finallyThrows : Bool)
    (processing : Nat) (m : Meta) (start now : Nat) :
    (processAction proc processOk finallyThrows processing m start now).1 = processing ∧
    ((processAction proc processOk finallyThrows processing m start now).2.countP
        (fun e => match e with | Effect.emitProcessed _ => true | _ => false)) = 1 ∧
    ((processAction proc processOk finallyThrows processing m start now).2.countP
        (fun e => e == Effect.changeMeta m.id "processed"))
      = (if processOk then 1 else 0) ∧
    ((processAction proc processOk finallyThrows processing m start now).2.countP
        (fun e => e == Effect.changeMeta m.id "error"))
      = (if processOk then 0 else 1) ∧
    ((processAction proc processOk finallyThrows processing m start now).2.countP
        (fun e => match e with
          | Effect.addToLog a2 _ =>
            a2.type == "logux/undo" && a2.id == some m.id && a2.reason == some "error"
          | _ => false))
      = (if processOk then 0 else 1) ∧
    ((processAction proc processOk finallyThrows processing m start now).2.countP
        (fun e => e == Effect.emitError))
      = (if processOk then 0 else 1) + (if proc.hasFinally && finallyThrows then 1 else 0) := by
  cases processOk <;> cases hf : proc.hasFinally <;> cases finallyThrows <;>
    simp [processAction, markAsProcessed, undoEffects, undo, buildUndo, finallyEffects, hf]

/-- Witness for the processAction theorem at a concrete invocation. -/
theorem processAction_terminal_witness :
    (processAction { } true false 2 w4meta 0 5).1 = 2 :=
  (processAction_terminal { } true false 2 w4meta 0 5).1

/-- Claim C4: a waiting action whose type resolves to no processor at
all is routed to internalUnkownType, which changes the status to error,
reports unknownType, adds a logux/undo with reason unknownType
referencing the id exactly when the origin userId is not server, and
sends a debug frame exactly when the environment is development and the
origin clientId is connected. -/
theorem unknown_type_handling (cfg : TypesConfig) (env : String)
    (connected : List String) (processOk finallyThrows : Bool) (processing : Nat)
    (a : Action) (m : Meta) (start now : Nat)
    (hw : m.status = some "waiting") (hp : getProcessor cfg a.type = none) :
    (addStatusDispatch cfg env connected processOk finallyThrows processing a m start now).2
      = internalUnkownType env connected a m ∧
    ((internalUnkownType env connected a m).countP
        (fun e => e == Effect.changeMeta m.id "error")) = 1 ∧
    ((internalUnkownType env connected a m).countP
        (fun e => e == Effect.report "unknownType")) = 1 ∧
    ((internalUnkownType env connected a m).countP
        (fun e => match e with
          | Effect.addToLog a2 _ =>
            a2.type == "logux/undo" && a2.id == some m.id && a2.reason == some "unknownType"
          | _ => false))
      = (if (parseId m.id).userId ≠ some "server" then 1 else 0) ∧
    ((internalUnkownType env connected a m).countP
        (fun e => match e with | Effect.debugFrame _ => true | _ => false))
      = (if env == "development" && connected.contains (parseId m.id).clientId then 1
        else 0) := by
  refine ⟨by simp [addStatusDispatch, hw, hp], ?_, ?_, ?_, ?_⟩ <;>
    by_cases hu : (parseId m.id).userId = some "server" <;>
      by_cases he : env = "development" ∧ (parseId m.id).clientId ∈ connected <;>
        simp [internalUnkownType, undoEffects, undo, buildUndo, debugActionError, hu, he]

/-- Witness for the unknown type theorem at a server with no registered
processors. -/
theorem unknown_type_handling_witness :
    w4meta.status = some "waiting" ∧
    getProcessor { } w4action.type = none ∧
    (addStatusDispatch { } "development" ["10:uuid"] true false 0 w4action w4meta 0 0).2
      = internalUnkownType "development" ["10:uuid"] w4action w4meta :=
  ⟨rfl, rfl,
    (unknown_type_handling
      { } "development" ["10:uuid"] true false 0 w4action w4meta 0 0 rfl rfl).1⟩

/-- Witness for the zombie eviction theorem at a concrete registry. -/
theorem auth_evicts_zombie_witness :
    lookupKey c7app.nodeIds "10:a" = some c7prior ∧
    c7app.destroing = false ∧
    (authSuccess c7app c7fresh "10:a").2.1
      = some { c7prior with zombie := true, destroyed := true } :=
  ⟨by decide, by decide,
    (auth_evicts_zombie c7app c7fresh "10:a" c7prior (by decide) (by decide)).1⟩

end Logux
